import Mathlib

/-!
Verification development for the maintenance-request parser
(src/maintenenceapp.py).  The extractors are embedded shallowly: text is a
`List Char`, Python regular-expression searches are embedded as explicit
leftmost-match scanners with the same backtracking behaviour, calendar
dates are rata-die integers (days since 1970-01-01), and the external
services (the SpaCy tokenizer/NER, `dateparser.parse` and `search_dates`)
are oracle parameters.
-/

namespace RoomApp

/-! ### Character classes and basic matching (Python `re` semantics, ASCII) -/

/-- Python regex `\w` on the ASCII texts the parser handles. -/
def wordChar (c : Char) : Bool := c.isAlphanum || c == '_'

/-- Python regex `\s` (ASCII whitespace). -/
def isSpaceCh (c : Char) : Bool :=
  c == ' ' || c == '\t' || c == '\n' || c == '\r' ||
  c == Char.ofNat 11 || c == Char.ofNat 12

/-- Python `str.lower()` on ASCII text. -/
def pyLower (s : List Char) : List Char := s.map Char.toLower

/-- The lowercased character list of an input string (`txt = text.lower()`). -/
def lowerTxt (text : String) : List Char := pyLower text.toList

/-- Python `str.capitalize()`: first char uppercased, rest lowercased. -/
def pyCapitalize (s : String) : String :=
  match s.toList with
  | [] => ""
  | c :: cs => String.mk (c.toUpper :: cs.map Char.toLower)

/-- The literal `pat` matches in `s` starting at index `i`. -/
def matchesAt (pat s : List Char) (i : Nat) : Bool := pat.isPrefixOf (s.drop i)

/-- Case-insensitive literal match (regex flag `re.IGNORECASE`). -/
def matchesAtCI (pat s : List Char) (i : Nat) : Bool :=
  matchesAt (pyLower pat) (pyLower s) i

/-- Whether the character at index `i` exists and is a word character. -/
def wordAtIdx (s : List Char) (i : Nat) : Bool :=
  match s.drop i with
  | [] => false
  | c :: _ => wordChar c

/-- Python regex `\b` at position `p` (between `s[p-1]` and `s[p]`):
exactly one side is a word character; out of range counts as non-word. -/
def boundaryAt (s : List Char) (p : Nat) : Bool :=
  (if p = 0 then false else wordAtIdx s (p - 1)) != wordAtIdx s p

/-- `\b kw \b` matches at index `i` (for `kw` starting and ending in word
characters, as every keyword in the tables does). -/
def wholeWordAt (kw s : List Char) (i : Nat) : Bool :=
  matchesAt kw s i && boundaryAt s i && boundaryAt s (i + kw.length)

/-- `re.search(rf'\b{kw}\b', s)`: index of the leftmost whole-word match. -/
def wholeWordFind (kw s : List Char) : Option Nat :=
  (List.range (s.length + 1)).find? (fun i => wholeWordAt kw s i)

/-- Whether `re.search(rf'\b{kw}\b', s)` succeeds. -/
def hasWholeWord (kw s : List Char) : Bool := (wholeWordFind kw s).isSome

/-- Length of the run of `\s` characters starting at index `j`. -/
def spaceRunLen (s : List Char) (j : Nat) : Nat :=
  ((s.drop j).takeWhile isSpaceCh).length

/-- Python `pat in s` (plain substring containment, no word boundaries). -/
def isSubstr (pat s : List Char) : Bool :=
  (List.range (s.length + 1)).any (fun i => matchesAt pat s i)

/-- Positions produced by `re.finditer(rf'\b{kw}\b', s)`: repeatedly the
leftmost whole-word match, resuming just past the end of each match. -/
def finditerAux (kw s : List Char) : Nat → Nat → List Nat
  | 0, _ => []
  | fuel + 1, pos =>
    match (List.range (s.length + 1)).find?
        (fun i => decide (pos ≤ i) && wholeWordAt kw s i) with
    | none => []
    | some i => i :: finditerAux kw s fuel (i + kw.length)

def finditerPos (kw s : List Char) : List Nat :=
  if kw.isEmpty then [] else finditerAux kw s (s.length + 1) 0

/-! ### Keyword tables (lines 18-44 of the source) -/

/-- `TASK_CATEGORIES`: insertion-ordered category table. -/
def TASK_CATEGORIES : List (String × List String) :=
  [("electrical",
    ["emergency exit sign", "exit sign",
     "electrical", "light", "lights", "bulb", "bulbs",
     "fixture", "fixtures", "outlet", "socket", "switch",
     "wire", "wiring", "cable", "sign"]),
   ("plumbing", ["leak", "pipe", "pipes", "toilet", "sink", "sinks", "faucet"]),
   ("hvac", ["ac", "air conditioner", "vent", "vents", "cooling", "heater",
             "duct", "ductwork"]),
   ("carpentry", ["door", "window", "handle", "frame", "handrail", "ladder",
                  "drywall"]),
   ("general", ["broken", "fix", "repair", "generator"])]

/-- `GENERIC_ASSETS`: words too generic to report when something more
specific is also present (a Python set; only membership is used). -/
def GENERIC_ASSETS : List String :=
  ["broken", "fix", "repair", "leak", "fluorescent",
   "thing", "unit", "component", "device", "fixture",
   "system", "apparatus", "equipment", "object", "item",
   "hardware", "part"]

/-- `PRIORITY_KEYWORDS`: insertion-ordered priority table (high, medium, low). -/
def PRIORITY_KEYWORDS : List (String × List String) :=
  [("high", ["high priority", "urgent", "asap", "immediately", "emergency",
             "critical", "immediate attention"]),
   ("medium", ["medium priority", "normal priority", "soon", "quick",
               "needs attention"]),
   ("low", ["low priority", "whenever", "no rush", "sometime", "can wait",
            "minor", "not a big deal"])]

/-- `TASK_CATEGORIES.get(name, [])` (dict lookup by lowercased name). -/
def categoryKws (name : String) : List String :=
  match TASK_CATEGORIES.find? (fun ck => ck.1 == name) with
  | some ck => ck.2
  | none => []

/-! ### `extract_task_type` (lines 102-108) -/

/-- `extract_task_type`: first category (in table order) one of whose
keywords occurs as a whole word in the lowercased text; default General. -/
def extract_task_type (text : String) : String :=
  let txt := lowerTxt text
  match TASK_CATEGORIES.findSome?
      (fun ck => if ck.2.any (fun kw => hasWholeWord kw.toList txt)
                 then some (pyCapitalize ck.1) else none) with
  | some c => c
  | none => "General"

/-! ### `extract_priority` (lines 155-168) -/

/-- The negative lookahead `(?!\s+exit)` taken positively: one or more
whitespace characters followed by the literal `exit` start at index `j`. -/
def spacesThenPat (pat s : List Char) (j : Nat) : Bool :=
  (List.range (s.length + 2)).any (fun k =>
    decide (1 ≤ k) && ((s.drop j).take k).all isSpaceCh && matchesAt pat s (j + k))

/-- `re.search(r'\bemergency\b(?!\s+exit)', txt)` succeeds: some whole-word
occurrence of `emergency` is not followed by whitespace and `exit`. -/
def emergencyNoExit (s : List Char) : Bool :=
  (List.range (s.length + 1)).any (fun i =>
    wholeWordAt ("emergency".toList) s i &&
    !spacesThenPat ("exit".toList) s (i + ("emergency".toList).length))

/-- `re.search(r'\b(minor|not a big deal)\b', txt)` succeeds. -/
def downplayCue (s : List Char) : Bool :=
  hasWholeWord ("minor".toList) s || hasWholeWord ("not a big deal".toList) s

/-- `re.search(r'\bnot\s+(?:urgent|high priority|critical)\b', txt)` succeeds. -/
def negUrgency (s : List Char) : Bool :=
  (List.range (s.length + 1)).any (fun i =>
    boundaryAt s i && matchesAt ("not".toList) s i &&
    (["urgent", "high priority", "critical"].any (fun w =>
      (List.range (s.length + 2)).any (fun k =>
        decide (1 ≤ k) && ((s.drop (i + 3)).take k).all isSpaceCh &&
        matchesAt w.toList s (i + 3 + k) &&
        boundaryAt s (i + 3 + k + w.toList.length)))))

/-- `extract_priority`: the emergency pre-check, the downplay cue, the
negated-urgency cue, then the priority table scanned in insertion order
(high, medium, low); default Medium. -/
def extract_priority (text : String) : String :=
  let txt := lowerTxt text
  if emergencyNoExit txt then "High"
  else if downplayCue txt then "Low"
  else if negUrgency txt then "Low"
  else
    match PRIORITY_KEYWORDS.findSome?
        (fun lv => if lv.2.any (fun kw => hasWholeWord kw.toList txt)
                   then some (pyCapitalize lv.1) else none) with
    | some p => p
    | none => "Medium"

/-! ### `extract_asset` (lines 110-153) -/

/-- One attempt of the compound regex
`\b(kw|...)\s+(kw|...)\b` at start index `i`: group-1 alternatives in
table order, backtracking into the whitespace and the group-2 alternatives,
exactly as the Python engine does. -/
def compoundAt (kws : List (List Char)) (s : List Char) (i : Nat) :
    Option (List Char × List Char) :=
  if boundaryAt s i then
    kws.findSome? (fun k1 =>
      if matchesAt k1 s i then
        let j := i + k1.length
        let r := spaceRunLen s j
        if r = 0 then none
        else
          kws.findSome? (fun k2 =>
            if matchesAt k2 s (j + r) && boundaryAt s (j + r + k2.length)
            then some (k1, k2) else none)
      else none)
  else none

/-- `re.search` for the compound pattern: leftmost match. -/
def compoundSearch (kws : List (List Char)) (s : List Char) :
    Option (List Char × List Char) :=
  (List.range (s.length + 1)).findSome? (fun i => compoundAt kws s i)

/-- All `(position, keyword)` hits of the given keywords, keyword-major as
in the list comprehension `[(m.start(), kw) for kw in kws for m in ...]`. -/
def keywordHits (kws : List (List Char)) (s : List Char) :
    List (Nat × List Char) :=
  kws.flatMap (fun kw => (finditerPos kw s).map (fun p => (p, kw)))

/-- Python `min(hits, key=lambda x: x[0])` wrapped in an option: the first
element attaining the minimal position (ties keep the earlier list entry). -/
def minByFirst : List (Nat × List Char) → Option (Nat × List Char)
  | [] => none
  | h :: t =>
    match minByFirst t with
    | none => some h
    | some m => if h.1 ≤ m.1 then some h else some m

/-- The hit `h` is a keyword not in `GENERIC_ASSETS`
(`h[1] not in GENERIC_ASSETS`). -/
def nonGenericHit (h : Nat × List Char) : Bool :=
  !(GENERIC_ASSETS.contains (String.mk h.2))

/-- The generic filtering applied to a hit list when it has more than one
element: drop generic keywords provided something non-generic remains. -/
def filterGeneric (hits : List (Nat × List Char)) : List (Nat × List Char) :=
  if hits.length > 1 then
    let spec := hits.filter nonGenericHit
    if spec.isEmpty then hits else spec
  else hits

/-- `TASK_CATEGORIES.get(task_type.lower(), [])`, as character lists. -/
def assetKws (task_type : String) : List (List Char) :=
  (categoryKws (String.mk (pyLower task_type.toList))).map String.toList

/-- The concatenation of every category keyword list, in table order
(`for cat in TASK_CATEGORIES.values() for kw in cat`). -/
def allCategoryKws : List (List Char) :=
  (TASK_CATEGORIES.flatMap (fun ck => ck.2)).map String.toList

/-- `extract_asset`, with the SpaCy noun tokens supplied as the oracle
`nouns` (the texts of the tokens tagged NOUN, in document order). -/
def extract_asset (nouns : List String) (text : String) (task_type : String) :
    Option String :=
  let txt := lowerTxt text
  let kws := assetKws task_type
  if isSubstr ("emergency exit sign".toList) txt then some "emergency exit sign"
  else if isSubstr ("exit sign".toList) txt then some "exit sign"
  else
    match compoundSearch kws txt with
    | some c => some (String.mk c.1 ++ " " ++ String.mk c.2)
    | none =>
      match minByFirst (filterGeneric (keywordHits kws txt)) with
      | some h => some (String.mk h.2)
      | none =>
        match minByFirst (filterGeneric (keywordHits allCategoryKws txt)) with
        | some h => some (String.mk h.2)
        | none =>
          match nouns.find?
              (fun t => !(GENERIC_ASSETS.contains (String.mk (pyLower t.toList)))) with
          | some t => some t
          | none =>
            match nouns with
            | t :: _ => some t
            | [] => none

/-! ### Calendar arithmetic (the `datetime` / `calendar` primitives used) -/

/-- Gregorian leap year, as `calendar.isleap`. -/
def isLeap (y : Int) : Bool := (y % 4 == 0 && y % 100 != 0) || y % 400 == 0

/-- `calendar.monthrange(y, m)[1]`: number of days in the month. -/
def daysInMonth (y : Int) (m : Nat) : Nat :=
  if m = 2 then (if isLeap y then 29 else 28)
  else if m = 4 || m = 6 || m = 9 || m = 11 then 30
  else 31

/-- `datetime.date(y, m, d)` as a rata-die day count with epoch
1970-01-01 = 0 (the standard civil-from-days conversion); `timedelta`
addition is integer addition and date comparison is integer comparison. -/
def daysFromCivil (y : Int) (m d : Nat) : Int :=
  let y2 : Int := if m ≤ 2 then y - 1 else y
  let era : Int := y2.ediv 400
  let yoe : Int := y2 - era * 400
  let mp : Nat := (m + 9) % 12
  let doy : Int := ((153 * mp + 2) / 5 + (d - 1) : Nat)
  let doe : Int := yoe * 365 + yoe.ediv 4 - yoe.ediv 100 + doy
  era * 146097 + doe - 719468

/-- `date.weekday()`: Monday = 0 ... Sunday = 6. -/
def weekdayOf (rd : Int) : Int := (rd + 3).emod 7

/-- `nth_weekday(year, month, weekday, n)` (lines 47-50). -/
def nth_weekday (year : Int) (month weekday n : Nat) : Int :=
  let first := daysFromCivil year month 1
  let offset := ((weekday : Int) - weekdayOf first + 7).emod 7
  first + offset + 7 * ((n : Int) - 1)

/-- `last_weekday(year, month, weekday)` (lines 52-55). -/
def last_weekday (year : Int) (month weekday : Nat) : Int :=
  let last := daysInMonth year month
  let d := daysFromCivil year month last
  d - (weekdayOf d - (weekday : Int)).emod 7

/-- ASCII apostrophe. -/
def apos : Char := Char.ofNat 39

/-- Right single quotation mark (U+2019). -/
def rsquo : Char := Char.ofNat 8217

/-- Python `str.strip()` on both ends. -/
def stripWs (s : List Char) : List Char :=
  ((s.dropWhile isSpaceCh).reverse.dropWhile isSpaceCh).reverse

/-- The name normalization at the top of `get_holiday_date` (line 58-59):
lowercase, right quote to apostrophe, dots removed, stripped, and a trailing
apostrophe-s removed. -/
def normalizeHoliday (name : List Char) : List Char :=
  let nm := (pyLower name).map (fun c => if c == rsquo then apos else c)
  let nm := nm.filter (fun c => c != '.')
  let nm := stripWs nm
  if nm.reverse.take 2 == ['s', apos] then nm.take (nm.length - 2) else nm

/-- `get_holiday_date(name, year)` (lines 57-70). -/
def get_holiday_date (name : List Char) (year : Int) : Option Int :=
  let nm := normalizeHoliday name
  if nm == "thanksgiving".toList then some (nth_weekday year 11 3 4)
  else if nm == "christmas".toList then some (daysFromCivil year 12 25)
  else if nm == "new year day".toList || nm == "new year".toList then
    some (daysFromCivil year 1 1)
  else if nm == "valentine day".toList || nm == "valentines day".toList then
    some (daysFromCivil year 2 14)
  else if nm == "labor day".toList then some (nth_weekday year 9 0 1)
  else if nm == "memorial day".toList then some (last_weekday year 5 0)
  else if nm == "president day".toList || nm == "presidents day".toList then
    some (nth_weekday year 2 0 3)
  else if nm == "martin luther king jr day".toList then
    some (nth_weekday year 1 0 3)
  else if nm == "columbus day".toList then some (nth_weekday year 10 0 2)
  else if nm == "veterans day".toList then some (daysFromCivil year 11 11)
  else none

/-! ### The holiday regex (lines 181-185) -/

/-- The alternatives of the holiday alternation, flattened in the order the
backtracking engine tries them (each optional piece greedy-first). -/
def holidayAlts : List (List Char) :=
  ["thanksgiving".toList,
   "christmas".toList,
   "new year".toList ++ [apos] ++ "s day".toList,
   "new year day".toList,
   "new year".toList,
   "valentine".toList ++ [rsquo] ++ "s day".toList,
   "valentines day".toList,
   "labor day".toList,
   "memorial day".toList,
   "presidents day".toList,
   "president day".toList,
   "martin luther king jr. day".toList,
   "martin luther king jr day".toList,
   "columbus day".toList,
   "veterans day".toList]

/-- First holiday alternative matching at index `j` with the closing `\b`. -/
def holidayAltAt (s : List Char) (j : Nat) : Option (List Char) :=
  holidayAlts.findSome? (fun alt =>
    if matchesAt alt s j && boundaryAt s (j + alt.length) then some alt else none)

/-- One attempt of `\b(next\s+)?(<holidays>)\b` at index `i`: the optional
`next` prefix is tried first (greedy), falling back to the bare name. -/
def holidayMatchAt (s : List Char) (i : Nat) : Option (Bool × List Char) :=
  if boundaryAt s i then
    (if matchesAt ("next".toList) s i then
      let r := spaceRunLen s (i + 4)
      if 1 ≤ r then (holidayAltAt s (i + 4 + r)).map (fun nm => (true, nm))
      else none
    else none) <|>
    (holidayAltAt s i).map (fun nm => (false, nm))
  else none

/-- `re.search` for the holiday pattern: leftmost match, returning whether
the `next` qualifier was present and the matched holiday name. -/
def holidaySearch (s : List Char) : Option (Bool × List Char) :=
  (List.range (s.length + 1)).findSome? (fun i => holidayMatchAt s i)

/-- The holiday strategy of `extract_date` (lines 180-193): resolve for the
current year (next year when qualified by `next`); an unqualified date that
has already passed rolls forward one year.  `none` means the strategy
defers. -/
def holidayStep (nowY : Int) (nowDate : Int) (txt : List Char) : Option Int :=
  match holidaySearch txt with
  | none => none
  | some (qual, name) =>
    let yr := nowY + (if qual then 1 else 0)
    let hd := get_holiday_date name yr
    if !qual then
      match hd with
      | some h => if h < nowDate then get_holiday_date name (nowY + 1) else some h
      | none => none
    else hd

/-! ### The date-hint guard regex (lines 196-203) -/

/-- The literal alternatives of the guard alternation.  The optional
`(?:by\s+)?` prefix never affects whether a match exists (an alternative
preceded by `by ` also matches on its own, the whitespace providing the
boundary), so the guard is equivalent to a whole-word search for one of
these alternatives or for an ordinal number. -/
def dateHintWords : List (List Char) :=
  (["mon", "monday", "tue", "tuesday", "wed", "wednesday",
    "thu", "thursday", "fri", "friday", "sat", "saturday",
    "sun", "sunday",
    "january", "february", "march", "april", "may", "june", "july",
    "august", "september", "october", "november", "december",
    "next", "last", "tomorrow", "yesterday"] : List String).map String.toList

/-- `\d+(?:st|nd|rd|th)` with word boundaries on both sides, with the
backtracking of `\d+` made explicit as a choice of digit count. -/
def ordinalHint (s : List Char) : Bool :=
  (List.range (s.length + 1)).any (fun i =>
    boundaryAt s i &&
    (let run := ((s.drop i).takeWhile Char.isDigit).length
     (List.range (run + 1)).any (fun d =>
       decide (1 ≤ d) &&
       ((["st", "nd", "rd", "th"] : List String).any (fun suf =>
         matchesAt suf.toList s (i + d) && boundaryAt s (i + d + 2))))))

/-- The guard: the text contains a weekday name (full or abbreviated), a
month name, `next`, `last`, `tomorrow`, `yesterday`, or an ordinal number. -/
def dateHint (s : List Char) : Bool :=
  dateHintWords.any (fun w => hasWholeWord w s) || ordinalHint s

/-! ### Explicit day-plus-month regex (lines 206-211) -/

def monthNames : List (List Char) :=
  (["January", "February", "March", "April", "May", "June", "July",
    "August", "September", "October", "November", "December"] :
    List String).map String.toList

/-- The tail `(?:\s+of)?\s+(<month>)\b` starting at index `p` (after the
ordinal suffix), greedy `of` variant first; returns the end index of the
whole match. -/
def expDateTail (s : List Char) (p : Nat) : Option Nat :=
  (let r1 := spaceRunLen s p
   if 1 ≤ r1 && matchesAtCI ("of".toList) s (p + r1) then
     let q := p + r1 + 2
     let r2 := spaceRunLen s q
     if 1 ≤ r2 then
       monthNames.findSome? (fun mn =>
         if matchesAtCI mn s (q + r2) && boundaryAt s (q + r2 + mn.length)
         then some (q + r2 + mn.length) else none)
     else none
   else none) <|>
  (let r := spaceRunLen s p
   if 1 ≤ r then
     monthNames.findSome? (fun mn =>
       if matchesAtCI mn s (p + r) && boundaryAt s (p + r + mn.length)
       then some (p + r + mn.length) else none)
   else none)

/-- One attempt of `\b(\d{1,2})(?:st|nd|rd|th)(?:\s+of)?\s+(<month>)\b`
(case-insensitive, on the original text) at index `i`; returns the matched
substring (`group(0)`), which is what gets handed to `dateparser.parse`. -/
def expDateAt (s : List Char) (i : Nat) : Option (List Char) :=
  if boundaryAt s i then
    ([2, 1] : List Nat).findSome? (fun d =>
      if ((s.drop i).take d).length = d && ((s.drop i).take d).all Char.isDigit then
        (["st", "nd", "rd", "th"] : List String).findSome? (fun suf =>
          if matchesAtCI suf.toList s (i + d) then
            (expDateTail s (i + d + 2)).map (fun e => (s.drop i).take (e - i))
          else none)
      else none)
  else none

def expDateSearch (s : List Char) : Option (List Char) :=
  (List.range (s.length + 1)).findSome? (fun i => expDateAt s i)

/-! ### The weekday strategies (lines 214-234) -/

def weekdayNames : List (List Char) :=
  (["monday", "tuesday", "wednesday", "thursday", "friday", "saturday",
    "sunday"] : List String).map String.toList

/-- `\bby\s+(<weekday>)\b` at index `i`; returns the weekday name. -/
def byWeekdayAt (s : List Char) (i : Nat) : Option (List Char) :=
  if boundaryAt s i && matchesAt ("by".toList) s i then
    let r := spaceRunLen s (i + 2)
    if 1 ≤ r then
      weekdayNames.findSome? (fun w =>
        if matchesAt w s (i + 2 + r) && boundaryAt s (i + 2 + r + w.length)
        then some w else none)
    else none
  else none

def byWeekdaySearch (s : List Char) : Option (List Char) :=
  (List.range (s.length + 1)).findSome? (fun i => byWeekdayAt s i)

/-- `\bafter\s+next\s+(<weekday>)\b` at index `i`. -/
def aftWeekdayAt (s : List Char) (i : Nat) : Option (List Char) :=
  if boundaryAt s i && matchesAt ("after".toList) s i then
    let r1 := spaceRunLen s (i + 5)
    if 1 ≤ r1 && matchesAt ("next".toList) s (i + 5 + r1) then
      let p := i + 5 + r1 + 4
      let r2 := spaceRunLen s p
      if 1 ≤ r2 then
        weekdayNames.findSome? (fun w =>
          if matchesAt w s (p + r2) && boundaryAt s (p + r2 + w.length)
          then some w else none)
      else none
    else none
  else none

def aftWeekdaySearch (s : List Char) : Option (List Char) :=
  (List.range (s.length + 1)).findSome? (fun i => aftWeekdayAt s i)

/-- `\bbefore\s+(next|last)\s+(<weekday>)\b` at index `i`; returns the
qualifier (group 1) and the weekday (group 2). -/
def bfWeekdayAt (s : List Char) (i : Nat) : Option (List Char × List Char) :=
  if boundaryAt s i && matchesAt ("before".toList) s i then
    let r1 := spaceRunLen s (i + 6)
    if 1 ≤ r1 then
      (["next", "last"] : List String).findSome? (fun q =>
        if matchesAt q.toList s (i + 6 + r1) then
          let p := i + 6 + r1 + 4
          let r2 := spaceRunLen s p
          if 1 ≤ r2 then
            weekdayNames.findSome? (fun w =>
              if matchesAt w s (p + r2) && boundaryAt s (p + r2 + w.length)
              then some (q.toList, w) else none)
          else none
        else none)
    else none
  else none

def bfWeekdaySearch (s : List Char) : Option (List Char × List Char) :=
  (List.range (s.length + 1)).findSome? (fun i => bfWeekdayAt s i)

/-! ### `extract_date` (lines 170-251) -/

/-- The external services `extract_date` calls, abstracted: `parseBase` is
`dateparser.parse` with `RELATIVE_BASE` only, `parseFuture` additionally
prefers future dates, `nerDates` is the list of texts of the entities the
SpaCy pipeline labels DATE (in document order), and `searchDates` is the
result of `dateparser.search.search_dates` (`none` when it returns None).
All results are calendar dates as rata-die integers (`.date()` applied). -/
structure DateOracles where
  parseBase : List Char → Option Int
  parseFuture : List Char → Option Int
  nerDates : List (List Char)
  searchDates : Option (List (List Char × Int))

/-- The end-of-month phrase `\bend of (?:this|current) month\b`. -/
def endOfMonthCue (txt : List Char) : Bool :=
  hasWholeWord ("end of this month".toList) txt ||
  hasWholeWord ("end of current month".toList) txt

/-- `extract_date`, over the oracle services and the reference date
`now = (nowY, nowM, nowD)`.  Each strategy either returns a date or
defers; `none` overall models the final `return None`. -/
def extract_date (o : DateOracles) (nowY : Int) (nowM nowD : Nat)
    (text : String) : Option Int :=
  let s := text.toList
  let txt := lowerTxt text
  let nowDate := daysFromCivil nowY nowM nowD
  if endOfMonthCue txt then
    some (daysFromCivil nowY nowM (daysInMonth nowY nowM))
  else
    match holidayStep nowY nowDate txt with
    | some h => some h
    | none =>
      if !dateHint txt then none
      else
        (match expDateSearch s with
         | some g => o.parseBase g
         | none => none) <|>
        (match byWeekdaySearch txt with
         | some w => o.parseFuture w
         | none => none) <|>
        (match aftWeekdaySearch txt with
         | some w => (o.parseFuture w).map (fun b => b + 7)
         | none => none) <|>
        (match bfWeekdaySearch txt with
         | some qw =>
           (o.parseFuture qw.2).map (fun b =>
             if qw.1 == "next".toList then b + 7 else b - 7)
         | none => none) <|>
        (o.nerDates.findSome? (fun e =>
          if isSubstr ("other day".toList) (pyLower e) then none
          else o.parseFuture e)) <|>
        ((o.searchDates.getD []).findSome? (fun md =>
          if isSubstr ("other day".toList) (pyLower md.1) then none
          else some md.2))

/-! ### `extract_location` (lines 72-100)

Each of the twelve kinds is an independent `re.search`; only the first
match of each pattern contributes, and the fragments are appended in the
fixed order of the source.  Patterns on `text` keep the original case
(`matchesAtCI` where the search passes `re.IGNORECASE`); the rest run on
the lowercased text. -/

/-- `\b(?:building|bldg\.?)\s*[A-Z]\b` (IGNORECASE): alternatives in
order, greedy optional dot, `\s*` then a single letter (the class `[A-Z]`
is case-insensitive under the flag); returns `group(0)`. -/
def bldgMatchAt (s : List Char) (i : Nat) : Option (List Char) :=
  if boundaryAt s i then
    (["building", "bldg.", "bldg"] : List String).findSome? (fun kw =>
      if matchesAtCI kw.toList s i then
        let j := i + kw.length
        let r := spaceRunLen s j
        match s.drop (j + r) with
        | c :: _ =>
          if c.isAlpha && boundaryAt s (j + r + 1) then
            some ((s.drop i).take (j + r + 1 - i))
          else none
        | [] => none
      else none)
  else none

/-- `\b(?:suite|ste)\s*(\d+)\b` (IGNORECASE): returns `group(1)`, the
digits (`\d+` greedy; shorter digit runs cannot restore the boundary). -/
def suiteMatchAt (s : List Char) (i : Nat) : Option (List Char) :=
  if boundaryAt s i then
    (["suite", "ste"] : List String).findSome? (fun kw =>
      if matchesAtCI kw.toList s i then
        let j := i + kw.length
        let r := spaceRunLen s j
        let digs := (s.drop (j + r)).takeWhile Char.isDigit
        if 1 ≤ digs.length && boundaryAt s (j + r + digs.length) then some digs
        else none
      else none)
  else none

/-- `\b(room\s*\d+|\d{3})\b` (IGNORECASE): returns `group(0)`. -/
def roomMatchAt (s : List Char) (i : Nat) : Option (List Char) :=
  if boundaryAt s i then
    (if matchesAtCI ("room".toList) s i then
      let j := i + 4
      let r := spaceRunLen s j
      let digs := (s.drop (j + r)).takeWhile Char.isDigit
      if 1 ≤ digs.length && boundaryAt s (j + r + digs.length) then
        some ((s.drop i).take (j + r + digs.length - i))
      else none
    else none) <|>
    (let digs := (s.drop i).take 3
     if digs.length = 3 && digs.all Char.isDigit && boundaryAt s (i + 3) then
       some digs
     else none)
  else none

/-- The `\s+floor\b` tail of the floor pattern, returning `group(0)` of a
match that started at `i` and whose numeric part ends at `p`. -/
def floorTail (s : List Char) (i p : Nat) : Option (List Char) :=
  let r := spaceRunLen s p
  if 1 ≤ r && matchesAtCI ("floor".toList) s (p + r) &&
      boundaryAt s (p + r + 5) then
    some ((s.drop i).take (p + r + 5 - i))
  else none

/-- `\b\d+(?:st|nd|rd|th)?\s+floor\b` (IGNORECASE): `\d+` greedy with
backtracking over the digit count, optional ordinal suffix greedy-first. -/
def floorMatchAt (s : List Char) (i : Nat) : Option (List Char) :=
  if boundaryAt s i then
    let run := ((s.drop i).takeWhile Char.isDigit).length
    if 1 ≤ run then
      ((List.range run).map (fun k => run - k)).findSome? (fun d =>
        ((["st", "nd", "rd", "th"] : List String).findSome? (fun suf =>
          if matchesAtCI suf.toList s (i + d) then floorTail s i (i + d + 2)
          else none)) <|>
        floorTail s i (i + d))
    else none
  else none

/-- `\bstairs?\s*(\d+)\b` on the lowercased text: returns `group(1)`. -/
def stairMatchAt (t : List Char) (i : Nat) : Option (List Char) :=
  if boundaryAt t i then
    (["stairs", "stair"] : List String).findSome? (fun kw =>
      if matchesAt kw.toList t i then
        let j := i + kw.length
        let r := spaceRunLen t j
        let digs := (t.drop (j + r)).takeWhile Char.isDigit
        if 1 ≤ digs.length && boundaryAt t (j + r + digs.length) then some digs
        else none
      else none)
  else none

/-- The street-suffix alternatives in backtracking order (greedy dots). -/
def streetSufs : List (List Char) :=
  (["Street", "St.", "St", "Avenue", "Ave.", "Ave", "Road", "Rd.", "Rd"] :
    List String).map String.toList

/-- `\bon\s+([A-Z][\w\s]*?(?:Street|St\.?|Avenue|Ave\.?|Road|Rd\.?))\b`
on the original text, case-sensitively: lazy `[\w\s]*?` expands one
character at a time, each expansion trying the suffix alternatives in
order; returns `group(1)`. -/
def streetMatchAt (s : List Char) (i : Nat) : Option (List Char) :=
  if boundaryAt s i && matchesAt ("on".toList) s i then
    let r := spaceRunLen s (i + 2)
    if 1 ≤ r then
      let j := i + 2 + r
      match s.drop j with
      | c :: _ =>
        if c.isUpper then
          (List.range (s.length + 1)).findSome? (fun k =>
            if ((s.drop (j + 1)).take k).length = k &&
                ((s.drop (j + 1)).take k).all (fun ch => wordChar ch || isSpaceCh ch) then
              streetSufs.findSome? (fun suf =>
                if matchesAt suf s (j + 1 + k) &&
                    boundaryAt s (j + 1 + k + suf.length) then
                  some ((s.drop j).take (1 + k + suf.length))
                else none)
            else none)
        else none
      | [] => none
    else none
  else none

/-- `\bnear\s+the\s+([\w\s]+?elevator)\b` on the lowercased text: the
second `\s+` is greedy but backtracks (the lazy group may then begin with
the surrendered whitespace); returns `group(1)`. -/
def elevMatchAt (t : List Char) (i : Nat) : Option (List Char) :=
  if boundaryAt t i && matchesAt ("near".toList) t i then
    let r1 := spaceRunLen t (i + 4)
    if 1 ≤ r1 && matchesAt ("the".toList) t (i + 4 + r1) then
      let p := i + 4 + r1 + 3
      let rmax := spaceRunLen t p
      ((List.range rmax).map (fun a => rmax - a)).findSome? (fun r2 =>
        let j := p + r2
        (List.range (t.length + 1)).findSome? (fun k =>
          if 1 ≤ k && ((t.drop j).take k).length = k &&
              ((t.drop j).take k).all (fun ch => wordChar ch || isSpaceCh ch) &&
              matchesAt ("elevator".toList) t (j + k) &&
              boundaryAt t (j + k + 8) then
            some ((t.drop j).take (k + 8))
          else none))
    else none
  else none

/-- `\bcorridor\s*(\d+)\b` on the lowercased text: returns `group(1)`. -/
def corridorMatchAt (t : List Char) (i : Nat) : Option (List Char) :=
  if boundaryAt t i && matchesAt ("corridor".toList) t i then
    let j := i + 8
    let r := spaceRunLen t j
    let digs := (t.drop (j + r)).takeWhile Char.isDigit
    if 1 ≤ digs.length && boundaryAt t (j + r + digs.length) then some digs
    else none
  else none

/-- `\b(north|south|east|west)\s+wing\b` (and the same for `wall`) on the
lowercased text: returns `group(1)`, the direction word. -/
def dirMatchAt (word : List Char) (t : List Char) (i : Nat) :
    Option (List Char) :=
  if boundaryAt t i then
    (["north", "south", "east", "west"] : List String).findSome? (fun d =>
      if matchesAt d.toList t i then
        let r := spaceRunLen t (i + d.length)
        if 1 ≤ r && matchesAt word t (i + d.length + r) &&
            boundaryAt t (i + d.length + r + word.length) then
          some d.toList
        else none
      else none)
  else none

/-- Fixed-phrase matcher used for `residence hall` and `lobby`. -/
def phraseMatchAt (phrase : List Char) (t : List Char) (i : Nat) :
    Option (List Char) :=
  if wholeWordAt phrase t i then some phrase else none

/-- `re.search` over a positional matcher: the leftmost position at which
the pattern matches, as the backtracking engine scans left to right. -/
def reSearch (m : Nat → Option (List Char)) (n : Nat) : Option (List Char) :=
  (List.range (n + 1)).findSome? m

/-- The twelve location fragments, in the fixed order the source appends
them (building, suite, room, floor, stair, street, elevator, hall,
corridor, wing, wall, lobby), each already carrying its format template. -/
def locationFrags (text : String) : List (Option (List Char)) :=
  let s := text.toList
  let t := lowerTxt text
  [reSearch (bldgMatchAt s) s.length,
   (reSearch (suiteMatchAt s) s.length).map (fun g => "suite ".toList ++ g),
   reSearch (roomMatchAt s) s.length,
   reSearch (floorMatchAt s) s.length,
   (reSearch (stairMatchAt t) t.length).map (fun g => "Stair ".toList ++ g),
   reSearch (streetMatchAt s) s.length,
   reSearch (elevMatchAt t) t.length,
   reSearch (phraseMatchAt ("residence hall".toList) t) t.length,
   (reSearch (corridorMatchAt t) t.length).map (fun g => "corridor ".toList ++ g),
   (reSearch (dirMatchAt ("wing".toList) t) t.length).map (fun g => g ++ " wing".toList),
   (reSearch (dirMatchAt ("wall".toList) t) t.length).map (fun g => g ++ " wall".toList),
   reSearch (phraseMatchAt ("lobby".toList) t) t.length]

/-- Python `" | ".join(parts)`. -/
def joinBar : List (List Char) → List Char
  | [] => []
  | [p] => p
  | p :: ps => p ++ " | ".toList ++ joinBar ps

/-- `extract_location`: the present fragments joined with `" | "`, `None`
when nothing matched. -/
def extract_location (text : String) : Option String :=
  let parts := (locationFrags text).filterMap id
  if parts.isEmpty then none else some (String.mk (joinBar parts))

/-! ### Spec-side definitions

These follow the wording of the specification and of the claims under
scrutiny (not the source), to be compared with the embedded extractors. -/

/-- Spec-worded scanner: walk the category names in the given priority
order, return the capitalized name of the first category one of whose
table keywords has a whole-word case-insensitive match, else General. -/
def taskTypeScanned (order : List String) (text : String) : String :=
  match order.find?
      (fun c => (categoryKws c).any (fun kw => hasWholeWord kw.toList (lowerTxt text))) with
  | some c => pyCapitalize c
  | none => "General"

/-- Modelled from claim C1: the scan order HVAC, Electrical, Plumbing,
Carpentry, General the claim asserts. -/
def claimTaskType (text : String) : String :=
  taskTypeScanned ["hvac", "electrical", "plumbing", "carpentry", "general"] text

/-- `PRIORITY_KEYWORDS[lvl]` (dict lookup). -/
def priorityKws (lvl : String) : List String :=
  match PRIORITY_KEYWORDS.find? (fun p => p.1 == lvl) with
  | some p => p.2
  | none => []

/-- Modelled from claim C2: downplay cues, then negated urgency, then the
Low, High, Medium keyword sets in that order, default Medium — with
nothing checked before the first step. -/
def claimPriority (text : String) : String :=
  let txt := lowerTxt text
  if downplayCue txt then "Low"
  else if negUrgency txt then "Low"
  else if (priorityKws "low").any (fun kw => hasWholeWord kw.toList txt) then "Low"
  else if (priorityKws "high").any (fun kw => hasWholeWord kw.toList txt) then "High"
  else if (priorityKws "medium").any (fun kw => hasWholeWord kw.toList txt) then "Medium"
  else "Medium"

/-- The amended claim C2: first the whole-word `emergency` not followed by
whitespace and `exit` (High), then downplay cues (Low), then negated
urgency (Low), then the High, Medium, Low keyword sets in that order,
default Medium. -/
def amendedPriority (text : String) : String :=
  let txt := lowerTxt text
  if emergencyNoExit txt then "High"
  else if downplayCue txt then "Low"
  else if negUrgency txt then "Low"
  else if (priorityKws "high").any (fun kw => hasWholeWord kw.toList txt) then "High"
  else if (priorityKws "medium").any (fun kw => hasWholeWord kw.toList txt) then "Medium"
  else if (priorityKws "low").any (fun kw => hasWholeWord kw.toList txt) then "Low"
  else "Medium"

/-- Modelled from claim C10: the first match of a positional matcher as
the minimal matching index (rather than a left-to-right scan). -/
def leastMatch (m : Nat → Option (List Char)) (n : Nat) : Option (List Char) :=
  if h : ∃ i, i < n + 1 ∧ (m i).isSome = true then m (Nat.find h) else none

/-- Modelled from claim C10: each of the twelve fragment kinds contributes
the fragment of the minimal-index match of its pattern only, and the
present fragments are joined with `" | "` in the fixed kind order
building, suite, room, floor, stair, street, elevator, hall, corridor,
wing, wall, lobby. -/
def claimLocation (text : String) : Option String :=
  let s := text.toList
  let t := lowerTxt text
  let frags :=
    [leastMatch (bldgMatchAt s) s.length,
     (leastMatch (suiteMatchAt s) s.length).map (fun g => "suite ".toList ++ g),
     leastMatch (roomMatchAt s) s.length,
     leastMatch (floorMatchAt s) s.length,
     (leastMatch (stairMatchAt t) t.length).map (fun g => "Stair ".toList ++ g),
     leastMatch (streetMatchAt s) s.length,
     leastMatch (elevMatchAt t) t.length,
     leastMatch (phraseMatchAt ("residence hall".toList) t) t.length,
     (leastMatch (corridorMatchAt t) t.length).map (fun g => "corridor ".toList ++ g),
     (leastMatch (dirMatchAt ("wing".toList) t) t.length).map (fun g => g ++ " wing".toList),
     (leastMatch (dirMatchAt ("wall".toList) t) t.length).map (fun g => g ++ " wall".toList),
     leastMatch (phraseMatchAt ("lobby".toList) t) t.length]
  let parts := frags.filterMap id
  if parts.isEmpty then none else some (String.mk (joinBar parts))

/-! ### Helper lemmas -/

theorem matchesAt_append {a b s : List Char} {i : Nat} :
    matchesAt (a ++ b) s i = true ↔
      (matchesAt a s i = true ∧ matchesAt b s (i + a.length) = true) := by
  unfold matchesAt
  rw [List.isPrefixOf_iff_prefix, List.isPrefixOf_iff_prefix,
    List.isPrefixOf_iff_prefix]
  constructor
  · rintro ⟨t, ht⟩
    refine ⟨⟨b ++ t, by rw [← ht, List.append_assoc]⟩, ?_⟩
    have hd : s.drop (i + a.length) = b ++ t := by
      rw [← List.drop_drop, ← ht, List.append_assoc, List.drop_left]
    exact ⟨t, hd.symm⟩
  · rintro ⟨⟨u, hu⟩, ⟨v, hv⟩⟩
    have hd : s.drop (i + a.length) = u := by
      rw [← List.drop_drop, ← hu, List.drop_left]
    refine ⟨v, ?_⟩
    rw [← hu, List.append_assoc]
    congr 1
    rw [← hd, hv]

theorem matchesAt_singleton {c : Char} {s : List Char} {j : Nat}
    (h : matchesAt [c] s j = true) : (s.drop j).take 1 = [c] := by
  unfold matchesAt at h
  rw [List.isPrefixOf_iff_prefix] at h
  obtain ⟨t, ht⟩ := h
  rw [← ht]
  rfl

theorem matchesAt_lt_length {kw s : List Char} {i : Nat}
    (h : matchesAt kw s i = true) (hne : kw ≠ []) : i < s.length := by
  unfold matchesAt at h
  rw [List.isPrefixOf_iff_prefix] at h
  by_contra hge
  push_neg at hge
  have : s.drop i = [] := List.drop_eq_nil_of_le hge
  rw [this, List.prefix_nil] at h
  exact hne h

theorem wholeWordAt_parts {kw s : List Char} {i : Nat}
    (h : wholeWordAt kw s i = true) :
    matchesAt kw s i = true ∧ boundaryAt s i = true ∧
      boundaryAt s (i + kw.length) = true := by
  unfold wholeWordAt at h
  simp only [Bool.and_eq_true] at h
  exact ⟨h.1.1, h.1.2, h.2⟩

theorem hasWholeWord_exists {kw s : List Char}
    (h : hasWholeWord kw s = true) : ∃ i, wholeWordAt kw s i = true := by
  unfold hasWholeWord wholeWordFind at h
  rw [Option.isSome_iff_exists] at h
  obtain ⟨i, hi⟩ := h
  exact ⟨i, List.find?_some hi⟩

theorem hasWholeWord_of_at {kw s : List Char} {i : Nat} (hne : kw ≠ [])
    (h : wholeWordAt kw s i = true) : hasWholeWord kw s = true := by
  have hlt : i < s.length := matchesAt_lt_length (wholeWordAt_parts h).1 hne
  unfold hasWholeWord wholeWordFind
  rw [List.find?_isSome]
  exact ⟨i, List.mem_range.mpr (Nat.lt_succ_of_lt hlt), h⟩

theorem minByFirst_cons_none {a : Nat × List Char} {t : List (Nat × List Char)}
    (ht : minByFirst t = none) : minByFirst (a :: t) = some a := by
  unfold minByFirst
  rw [ht]

theorem minByFirst_cons_some {a b : Nat × List Char} {t : List (Nat × List Char)}
    (ht : minByFirst t = some b) :
    minByFirst (a :: t) = if a.1 ≤ b.1 then some a else some b := by
  unfold minByFirst
  rw [ht]

theorem minByFirst_eq_none {l : List (Nat × List Char)} :
    minByFirst l = none ↔ l = [] := by
  cases l with
  | nil => simp [minByFirst]
  | cons a t =>
    constructor
    · intro h
      cases ht : minByFirst t with
      | none => rw [minByFirst_cons_none ht] at h; exact absurd h (by simp)
      | some b =>
        rw [minByFirst_cons_some ht] at h
        by_cases hle : a.1 ≤ b.1
        · rw [if_pos hle] at h; exact absurd h (by simp)
        · rw [if_neg hle] at h; exact absurd h (by simp)
    · intro h; exact absurd h (List.cons_ne_nil a t)

theorem minByFirst_mem : ∀ {l : List (Nat × List Char)} {m : Nat × List Char},
    minByFirst l = some m → m ∈ l := by
  intro l
  induction l with
  | nil => intro m h; simp [minByFirst] at h
  | cons a t ih =>
    intro m h
    cases ht : minByFirst t with
    | none =>
      rw [minByFirst_cons_none ht] at h
      simp only [Option.some.injEq] at h
      simp [← h]
    | some b =>
      rw [minByFirst_cons_some ht] at h
      by_cases hle : a.1 ≤ b.1
      · rw [if_pos hle] at h
        simp only [Option.some.injEq] at h
        simp [← h]
      · rw [if_neg hle] at h
        simp only [Option.some.injEq] at h
        exact List.mem_cons_of_mem a (h ▸ ih ht)

theorem minByFirst_min : ∀ {l : List (Nat × List Char)} {m : Nat × List Char},
    minByFirst l = some m → ∀ q ∈ l, m.1 ≤ q.1 := by
  intro l
  induction l with
  | nil => intro m h; simp [minByFirst] at h
  | cons a t ih =>
    intro m h q hq
    cases ht : minByFirst t with
    | none =>
      rw [minByFirst_cons_none ht] at h
      simp only [Option.some.injEq] at h
      have hte : t = [] := minByFirst_eq_none.mp ht
      subst hte
      rcases List.mem_singleton.mp hq with rfl
      exact h ▸ Nat.le_refl _
    | some b =>
      rw [minByFirst_cons_some ht] at h
      rcases List.mem_cons.mp hq with hqa | hq2
      · rw [hqa]
        by_cases hle : a.1 ≤ b.1
        · rw [if_pos hle] at h
          simp only [Option.some.injEq] at h
          exact h ▸ Nat.le_refl _
        · rw [if_neg hle] at h
          simp only [Option.some.injEq] at h
          exact h ▸ Nat.le_of_lt (Nat.lt_of_not_le hle)
      · have hbq := ih ht q hq2
        by_cases hle : a.1 ≤ b.1
        · rw [if_pos hle] at h
          simp only [Option.some.injEq] at h
          exact h ▸ Nat.le_trans hle hbq
        · rw [if_neg hle] at h
          simp only [Option.some.injEq] at h
          exact h ▸ hbq

theorem one_lt_length_of_two_mem {α : Type} {a b : α} {l : List α}
    (ha : a ∈ l) (hb : b ∈ l) (hne : a ≠ b) : 1 < l.length := by
  match l with
  | [] => simp at ha
  | [x] =>
    rw [List.mem_singleton] at ha hb
    exact absurd (ha.trans hb.symm) hne
  | x :: y :: u =>
    simp only [List.length_cons]
    omega

/-- Bridging `findSome?` over a keyed table with `find?` over the key list
(the lookup function agreeing with the table on its own entries). -/
theorem findSome?_scan_eq (lookup : String → List String)
    (tbl : List (String × List String)) (p : List String → Bool)
    (f : String → String)
    (hk : ∀ ck ∈ tbl, lookup ck.1 = ck.2) :
    tbl.findSome? (fun ck => if p ck.2 then some (f ck.1) else none) =
      ((tbl.map Prod.fst).find? (fun c => p (lookup c))).map f := by
  induction tbl with
  | nil => rfl
  | cons a t ih =>
    rw [List.map_cons, List.findSome?_cons, List.find?_cons]
    have ha : lookup a.1 = a.2 := hk a (List.mem_cons_self a t)
    cases h : p a.2 with
    | true => simp [ha, h]
    | false =>
      simp [ha, h]
      simpa using ih (fun ck hck => hk ck (List.mem_cons_of_mem a hck))

/-! ### Claim C1 -/

/-- Claim C1 counterexample: on `"vent light"` the claimed scan order
(HVAC before Electrical) yields `Hvac`, but `extract_task_type` scans the
table in insertion order and returns `Electrical`. -/
theorem c1_task_type_order_counterexample :
    claimTaskType "vent light" = "Hvac" ∧
      extract_task_type "vent light" = "Electrical" ∧
      ("Hvac" : String) ≠ "Electrical" :=
  ⟨by decide, by decide, by decide⟩

/-- Claim C1 (amended): for every input text, `extract_task_type` scans
the category table in its insertion order Electrical, Plumbing, HVAC,
Carpentry, General and returns the capitalized name of the first category
with a whole-word case-insensitive match, else `General`. -/
theorem c1_task_type_scans_insertion_order (text : String) :
    extract_task_type text =
      taskTypeScanned ["electrical", "plumbing", "hvac", "carpentry", "general"]
        text := by
  simp only [extract_task_type, taskTypeScanned]
  rw [show (["electrical", "plumbing", "hvac", "carpentry", "general"] :
      List String) = TASK_CATEGORIES.map Prod.fst from rfl]
  rw [findSome?_scan_eq categoryKws TASK_CATEGORIES
      (fun kws => kws.any (fun kw => hasWholeWord kw.toList (lowerTxt text)))
      pyCapitalize (by decide)]
  cases hfind : (TASK_CATEGORIES.map Prod.fst).find?
      (fun c => (categoryKws c).any
        (fun kw => hasWholeWord kw.toList (lowerTxt text))) with
  | none => simp [hfind]
  | some c => simp [hfind]

/-! ### Claim C2 -/

/-- Claim C2 counterexample: on `"minor emergency"` the claimed order
(downplay cues first, nothing before them) yields `Low`, but
`extract_priority` checks the emergency pattern before everything else and
returns `High`. -/
theorem c2_priority_order_counterexample :
    claimPriority "minor emergency" = "Low" ∧
      extract_priority "minor emergency" = "High" :=
  ⟨by decide, by decide⟩

/-- Claim C2 (amended): for every text, `extract_priority` checks, first
match winning: the whole word `emergency` not followed by whitespace and
`exit` (High); downplay cues (Low); negated urgency (Low); then the High,
Medium and Low keyword sets in that order; default Medium. -/
theorem c2_priority_check_order (text : String) :
    extract_priority text = amendedPriority text := by
  simp only [extract_priority, amendedPriority]
  rw [findSome?_scan_eq priorityKws PRIORITY_KEYWORDS
      (fun kws => kws.any (fun kw => hasWholeWord kw.toList (lowerTxt text)))
      pyCapitalize (by decide)]
  simp only [show PRIORITY_KEYWORDS.map Prod.fst
      = (["high", "medium", "low"] : List String) from rfl, List.find?_cons]
  cases h1 : emergencyNoExit (lowerTxt text) with
  | true => rfl
  | false =>
  cases h2 : downplayCue (lowerTxt text) with
  | true => rfl
  | false =>
  cases h3 : negUrgency (lowerTxt text) with
  | true => rfl
  | false =>
  cases h4 : (priorityKws "high").any
      (fun kw => hasWholeWord kw.toList (lowerTxt text)) with
  | true => rfl
  | false =>
  cases h5 : (priorityKws "medium").any
      (fun kw => hasWholeWord kw.toList (lowerTxt text)) with
  | true => rfl
  | false =>
  cases h6 : (priorityKws "low").any
      (fun kw => hasWholeWord kw.toList (lowerTxt text)) with
  | true => rfl
  | false => rfl

/-! ### Claim C3 -/

/-- A whole-word occurrence of `not urgent` makes the negated-urgency
pattern `\bnot\s+(?:urgent|high priority|critical)\b` match. -/
theorem negUrgency_of_not_urgent {s : List Char}
    (h : hasWholeWord ("not urgent".toList) s = true) : negUrgency s = true := by
  obtain ⟨i, hi⟩ := hasWholeWord_exists h
  obtain ⟨hm, hb0, hbe⟩ := wholeWordAt_parts hi
  rw [show ("not urgent".toList) = ("not".toList) ++ ([' '] ++ "urgent".toList)
    from rfl] at hm
  rw [matchesAt_append] at hm
  obtain ⟨hnot, hrest⟩ := hm
  rw [matchesAt_append] at hrest
  obtain ⟨hsp, hurg⟩ := hrest
  have hlt : i < s.length :=
    matchesAt_lt_length hnot (by decide)
  unfold negUrgency
  rw [List.any_eq_true]
  refine ⟨i, List.mem_range.mpr (Nat.lt_succ_of_lt hlt), ?_⟩
  rw [Bool.and_eq_true, Bool.and_eq_true]
  refine ⟨⟨hb0, hnot⟩, ?_⟩
  rw [List.any_eq_true]
  refine ⟨"urgent", by decide, ?_⟩
  rw [List.any_eq_true]
  refine ⟨1, List.mem_range.mpr (by omega), ?_⟩
  rw [Bool.and_eq_true, Bool.and_eq_true, Bool.and_eq_true]
  refine ⟨⟨⟨by decide, ?_⟩, ?_⟩, ?_⟩
  · have h1 : (s.drop (i + 3)).take 1 = [' '] := matchesAt_singleton hsp
    rw [h1]
    decide
  · exact hurg
  · have he : i + 3 + 1 + ("urgent".toList).length
        = i + ("not urgent".toList).length := by
      have e1 : ("urgent".toList).length = 6 := rfl
      have e2 : ("not urgent".toList).length = 10 := rfl
      omega
    rw [he]
    exact hbe

/-- Claim C3: a text containing the phrase `not urgent` as whole words,
with no emergency cue, always gets priority Low and never High. -/
theorem c3_not_urgent_resolves_low (text : String)
    (h1 : hasWholeWord ("not urgent".toList) (lowerTxt text) = true)
    (h2 : emergencyNoExit (lowerTxt text) = false) :
    extract_priority text = "Low" ∧ extract_priority text ≠ "High" := by
  have hneg := negUrgency_of_not_urgent h1
  have hlow : extract_priority text = "Low" := by
    simp only [extract_priority, h2, Bool.false_eq_true, if_false]
    cases hd : downplayCue (lowerTxt text) with
    | true => simp
    | false => simp [hneg]
  exact ⟨hlow, by rw [hlow]; decide⟩

/-- Claim C3 witness at the concrete input `"it is not urgent"`. -/
theorem c3_not_urgent_resolves_low_witness :
    hasWholeWord ("not urgent".toList) (lowerTxt "it is not urgent") = true ∧
      emergencyNoExit (lowerTxt "it is not urgent") = false ∧
      extract_priority "it is not urgent" = "Low" ∧
      extract_priority "it is not urgent" ≠ "High" :=
  ⟨by decide, by decide,
    (c3_not_urgent_resolves_low "it is not urgent" (by decide) (by decide)).1,
    (c3_not_urgent_resolves_low "it is not urgent" (by decide) (by decide)).2⟩

/-! ### Claim C4 -/

theorem filterGeneric_eq_filter {hits : List (Nat × List Char)}
    (hlen : 1 < hits.length)
    (hne : (hits.filter nonGenericHit).isEmpty = false) :
    filterGeneric hits = hits.filter nonGenericHit := by
  simp only [filterGeneric, gt_iff_lt, hlen, if_true, hne, Bool.false_eq_true,
    if_false]

/-- Claim C4: when both a generic and a non-generic in-category keyword
occur as whole words (the fixed-phrase and compound steps not firing), the
asset resolver returns the earliest-positioned non-generic candidate; and
a sole generic hit is still returned (the filter never empties the set). -/
theorem c4_asset_generic_arbitration :
    (∀ (nouns : List String) (text task_type : String)
       (g sp m : Nat × List Char),
       isSubstr ("emergency exit sign".toList) (lowerTxt text) = false →
       isSubstr ("exit sign".toList) (lowerTxt text) = false →
       compoundSearch (assetKws task_type) (lowerTxt text) = none →
       g ∈ keywordHits (assetKws task_type) (lowerTxt text) →
       nonGenericHit g = false →
       sp ∈ keywordHits (assetKws task_type) (lowerTxt text) →
       nonGenericHit sp = true →
       minByFirst ((keywordHits (assetKws task_type) (lowerTxt text)).filter
         nonGenericHit) = some m →
       extract_asset nouns text task_type = some (String.mk m.2) ∧
         nonGenericHit m = true ∧
         (∀ q ∈ (keywordHits (assetKws task_type) (lowerTxt text)).filter
            nonGenericHit, m.1 ≤ q.1)) ∧
    (∀ (nouns : List String) (text task_type : String) (p : Nat)
       (gkw : List Char),
       isSubstr ("emergency exit sign".toList) (lowerTxt text) = false →
       isSubstr ("exit sign".toList) (lowerTxt text) = false →
       compoundSearch (assetKws task_type) (lowerTxt text) = none →
       keywordHits (assetKws task_type) (lowerTxt text) = [(p, gkw)] →
       GENERIC_ASSETS.contains (String.mk gkw) = true →
       extract_asset nouns text task_type = some (String.mk gkw)) := by
  constructor
  · intro nouns text task_type g sp m h1 h2 hc hg hgf hs hst hmin
    have hlen : 1 < (keywordHits (assetKws task_type) (lowerTxt text)).length := by
      refine one_lt_length_of_two_mem hg hs ?_
      intro he
      rw [he, hst] at hgf
      exact absurd hgf (by decide)
    have hspmem : sp ∈ (keywordHits (assetKws task_type) (lowerTxt text)).filter
        nonGenericHit := List.mem_filter.mpr ⟨hs, hst⟩
    have hfil : ((keywordHits (assetKws task_type) (lowerTxt text)).filter
        nonGenericHit).isEmpty = false := by
      rw [List.isEmpty_eq_false]
      intro hnil
      rw [hnil] at hspmem
      simp at hspmem
    have hmmem := minByFirst_mem hmin
    refine ⟨?_, List.of_mem_filter hmmem, minByFirst_min hmin⟩
    simp only [extract_asset, h1, h2, hc, Bool.false_eq_true, if_false]
    rw [filterGeneric_eq_filter hlen hfil, hmin]
  · intro nouns text task_type p gkw h1 h2 hc hhits hgen
    simp only [extract_asset, h1, h2, hc, Bool.false_eq_true, if_false]
    rw [hhits]
    rfl

/-- Claim C4 witness: in `"there is a leak in the pipe"` (category
Plumbing), both the generic `leak` and the specific `pipe` occur; the
resolver returns `pipe`, the earliest non-generic candidate.  And in
`"there is a leak"` the sole generic hit `leak` is still returned. -/
theorem c4_asset_generic_arbitration_witness :
    (extract_asset [] "there is a leak in the pipe" "Plumbing" = some "pipe" ∧
       nonGenericHit (23, "pipe".toList) = true ∧
       (∀ q ∈ (keywordHits (assetKws "Plumbing")
           (lowerTxt "there is a leak in the pipe")).filter nonGenericHit,
         (23 : Nat) ≤ q.1)) ∧
      extract_asset [] "there is a leak" "Plumbing" = some "leak" := by
  constructor
  · exact (c4_asset_generic_arbitration.1 [] "there is a leak in the pipe"
      "Plumbing" (11, "leak".toList) (23, "pipe".toList)
      (23, "pipe".toList) (by decide) (by decide) (by decide) (by decide)
      (by decide) (by decide) (by decide) (by decide))
  · exact (c4_asset_generic_arbitration.2 [] "there is a leak" "Plumbing"
      11 ("leak".toList) (by decide) (by decide) (by decide) (by decide)
      (by decide))

/-! ### Claim C5 -/

/-- Claim C5 counterexample: in `"exit sign light switch"` (detected
category Electrical) the adjacent category keywords `exit sign` and
`light` form a compound, yet the resolver returns the fixed phrase
`exit sign`, not the two keywords joined by a space. -/
theorem c5_compound_counterexample :
    extract_task_type "exit sign light switch" = "Electrical" ∧
      compoundSearch (assetKws "Electrical") (lowerTxt "exit sign light switch")
        = some ("exit sign".toList, "light".toList) ∧
      extract_asset [] "exit sign light switch" "Electrical" = some "exit sign" ∧
      ("exit sign" : String) ≠ "exit sign light" :=
  ⟨by decide, by decide, by decide, by decide⟩

/-- Claim C5 (amended): provided neither fixed multi-word phrase
(`emergency exit sign`, `exit sign`) occurs in the text, whenever the
compound pattern finds two adjacent whole-word category keywords the
resolver returns them joined by a single space, ahead of every
single-keyword step. -/
theorem c5_compound_amended (nouns : List String) (text task_type : String)
    (k1 k2 : List Char)
    (h1 : isSubstr ("emergency exit sign".toList) (lowerTxt text) = false)
    (h2 : isSubstr ("exit sign".toList) (lowerTxt text) = false)
    (hc : compoundSearch (assetKws task_type) (lowerTxt text) = some (k1, k2)) :
    extract_asset nouns text task_type
      = some (String.mk k1 ++ " " ++ String.mk k2) := by
  simp only [extract_asset, h1, h2, Bool.false_eq_true, if_false, hc]

/-- Claim C5 (amended) witness at `"door handle is broken"`. -/
theorem c5_compound_amended_witness :
    extract_asset [] "door handle is broken" "Carpentry" = some "door handle" := by
  have h := c5_compound_amended [] "door handle is broken" "Carpentry"
    ("door".toList) ("handle".toList) (by decide) (by decide) (by decide)
  simpa using h

/-! ### Claim C6 -/

/-- Claim C6: if the text has no date-like token (no weekday name, month
name, `next`, `last`, `tomorrow`, `yesterday`, or ordinal number), then
once the end-of-month and holiday strategies have deferred the resolver
returns null — for every possible behaviour of the NER and fuzzy-search
services, which are therefore never able to contribute. -/
theorem c6_guard_skips_fallbacks (o : DateOracles) (nowY : Int)
    (nowM nowD : Nat) (text : String)
    (h1 : endOfMonthCue (lowerTxt text) = false)
    (h2 : holidayStep nowY (daysFromCivil nowY nowM nowD) (lowerTxt text) = none)
    (h3 : dateHint (lowerTxt text) = false) :
    extract_date o nowY nowM nowD text = none := by
  simp only [extract_date, h1, h2, h3, Bool.false_eq_true, if_false,
    Bool.not_false, if_true]

/-- Claim C6 witness: `"the sink is broken"` yields no date even under an
adversarial oracle whose NER and fuzzy search both offer dates. -/
theorem c6_guard_skips_fallbacks_witness :
    extract_date
      { parseBase := fun _ => some 0, parseFuture := fun _ => some 0,
        nerDates := ["sink".toList], searchDates := some [("sink".toList, 42)] }
      2026 10 12 "the sink is broken" = none :=
  c6_guard_skips_fallbacks _ 2026 10 12 "the sink is broken"
    (by decide) (by decide) (by decide)

/-! ### Claim C7 -/

/-- Claim C7: with the earlier strategies deferring and the weekday parser
resolving `wd` to `w`, a `by <weekday>` text resolves to `w`, an
`after next <weekday>` text and a `before next <weekday>` text resolve to
`w + 7`, a `before last <weekday>` text to `w - 7`; hence the `by` and
`before next` dates are exactly 7 days apart. -/
theorem c7_weekday_offsets (o : DateOracles) (nowY : Int) (nowM nowD : Nat)
    (t1 t2 t3 t4 : String) (wd : List Char) (w : Int)
    (hw : o.parseFuture wd = some w)
    (h1a : endOfMonthCue (lowerTxt t1) = false)
    (h1b : holidayStep nowY (daysFromCivil nowY nowM nowD) (lowerTxt t1) = none)
    (h1c : dateHint (lowerTxt t1) = true)
    (h1d : expDateSearch t1.toList = none)
    (h1e : byWeekdaySearch (lowerTxt t1) = some wd)
    (h2a : endOfMonthCue (lowerTxt t2) = false)
    (h2b : holidayStep nowY (daysFromCivil nowY nowM nowD) (lowerTxt t2) = none)
    (h2c : dateHint (lowerTxt t2) = true)
    (h2d : expDateSearch t2.toList = none)
    (h2e : byWeekdaySearch (lowerTxt t2) = none)
    (h2f : aftWeekdaySearch (lowerTxt t2) = some wd)
    (h3a : endOfMonthCue (lowerTxt t3) = false)
    (h3b : holidayStep nowY (daysFromCivil nowY nowM nowD) (lowerTxt t3) = none)
    (h3c : dateHint (lowerTxt t3) = true)
    (h3d : expDateSearch t3.toList = none)
    (h3e : byWeekdaySearch (lowerTxt t3) = none)
    (h3f : aftWeekdaySearch (lowerTxt t3) = none)
    (h3g : bfWeekdaySearch (lowerTxt t3) = some ("next".toList, wd))
    (h4a : endOfMonthCue (lowerTxt t4) = false)
    (h4b : holidayStep nowY (daysFromCivil nowY nowM nowD) (lowerTxt t4) = none)
    (h4c : dateHint (lowerTxt t4) = true)
    (h4d : expDateSearch t4.toList = none)
    (h4e : byWeekdaySearch (lowerTxt t4) = none)
    (h4f : aftWeekdaySearch (lowerTxt t4) = none)
    (h4g : bfWeekdaySearch (lowerTxt t4) = some ("last".toList, wd)) :
    extract_date o nowY nowM nowD t1 = some w ∧
      extract_date o nowY nowM nowD t2 = some (w + 7) ∧
      extract_date o nowY nowM nowD t3 = some (w + 7) ∧
      extract_date o nowY nowM nowD t4 = some (w - 7) ∧
      (∀ d1 d3 : Int, extract_date o nowY nowM nowD t1 = some d1 →
        extract_date o nowY nowM nowD t3 = some d3 → d3 - d1 = 7) := by
  have e1 : extract_date o nowY nowM nowD t1 = some w := by
    simp only [extract_date, h1a, h1b, h1c, h1d, h1e, hw, Bool.false_eq_true,
      if_false, Bool.not_true, Option.none_orElse, Option.some_orElse]
  have e2 : extract_date o nowY nowM nowD t2 = some (w + 7) := by
    simp only [extract_date, h2a, h2b, h2c, h2d, h2e, h2f, hw,
      Bool.false_eq_true, if_false, Bool.not_true, Option.map_some',
      Option.none_orElse, Option.some_orElse]
  have e3 : extract_date o nowY nowM nowD t3 = some (w + 7) := by
    simp only [extract_date, h3a, h3b, h3c, h3d, h3e, h3f, h3g, hw,
      Bool.false_eq_true, if_false, Bool.not_true, Option.map_some',
      beq_self_eq_true, if_true, Option.none_orElse, Option.some_orElse]
  have e4 : extract_date o nowY nowM nowD t4 = some (w - 7) := by
    simp only [extract_date, h4a, h4b, h4c, h4d, h4e, h4f, h4g, hw,
      Bool.false_eq_true, if_false, Bool.not_true, Option.map_some',
      (show (("last".toList : List Char) == "next".toList) = false by decide),
      Option.none_orElse, Option.some_orElse]
  refine ⟨e1, e2, e3, e4, ?_⟩
  intro d1 d3 hd1 hd3
  rw [e1] at hd1
  rw [e3] at hd3
  have hw1 : d1 = w := by injection hd1 with h; omega
  have hw3 : d3 = w + 7 := by injection hd3 with h; omega
  omega

/-- Claim C7 witness at the texts `"fix it by friday"`,
`"after next friday"`, `"before next friday"`, `"before last friday"`
with the weekday parser resolving `friday` to day 20740. -/
theorem c7_weekday_offsets_witness :
    extract_date
        { parseBase := fun _ => none,
          parseFuture := fun l => if l == "friday".toList then some 20740 else none,
          nerDates := [], searchDates := none }
        2026 10 12 "fix it by friday" = some 20740 ∧
      extract_date
        { parseBase := fun _ => none,
          parseFuture := fun l => if l == "friday".toList then some 20740 else none,
          nerDates := [], searchDates := none }
        2026 10 12 "before next friday" = some (20740 + 7) ∧
      (20740 + 7 : Int) - 20740 = 7 := by
  have h := c7_weekday_offsets
    { parseBase := fun _ => none,
      parseFuture := fun l => if l == "friday".toList then some 20740 else none,
      nerDates := [], searchDates := none }
    2026 10 12 "fix it by friday" "after next friday" "before next friday"
    "before last friday" ("friday".toList) 20740 (by decide)
    (by decide) (by decide) (by decide) (by decide) (by decide)
    (by decide) (by decide) (by decide) (by decide) (by decide) (by decide)
    (by decide) (by decide) (by decide) (by decide) (by decide) (by decide)
    (by decide)
    (by decide) (by decide) (by decide) (by decide) (by decide) (by decide)
    (by decide)
  exact ⟨h.1, h.2.2.1, h.2.2.2.2 20740 (20740 + 7) h.1 h.2.2.1⟩

/-! ### Claim C8 -/

/-- Claim C8: an unqualified recognized holiday resolves in the current
year, rolling forward exactly one year when the current-year date has
already passed the reference date; a `next`-qualified holiday uses the
next year unconditionally. -/
theorem c8_holiday_rollover :
    (∀ (o : DateOracles) (nowY : Int) (nowM nowD : Nat) (text : String)
       (name : List Char) (h : Int),
       endOfMonthCue (lowerTxt text) = false →
       holidaySearch (lowerTxt text) = some (false, name) →
       get_holiday_date name nowY = some h →
       ¬(h < daysFromCivil nowY nowM nowD) →
       extract_date o nowY nowM nowD text = some h) ∧
    (∀ (o : DateOracles) (nowY : Int) (nowM nowD : Nat) (text : String)
       (name : List Char) (h h2 : Int),
       endOfMonthCue (lowerTxt text) = false →
       holidaySearch (lowerTxt text) = some (false, name) →
       get_holiday_date name nowY = some h →
       h < daysFromCivil nowY nowM nowD →
       get_holiday_date name (nowY + 1) = some h2 →
       extract_date o nowY nowM nowD text = some h2) ∧
    (∀ (o : DateOracles) (nowY : Int) (nowM nowD : Nat) (text : String)
       (name : List Char) (h2 : Int),
       endOfMonthCue (lowerTxt text) = false →
       holidaySearch (lowerTxt text) = some (true, name) →
       get_holiday_date name (nowY + 1) = some h2 →
       extract_date o nowY nowM nowD text = some h2) := by
  refine ⟨?_, ?_, ?_⟩
  · intro o nowY nowM nowD text name h he hs hg hlt
    have hstep : holidayStep nowY (daysFromCivil nowY nowM nowD)
        (lowerTxt text) = some h := by
      simp only [holidayStep, hs, Bool.not_false, if_true,
        Bool.false_eq_true, if_false, add_zero, hg]
      rw [if_neg hlt]
    simp only [extract_date, he, Bool.false_eq_true, if_false, hstep]
  · intro o nowY nowM nowD text name h h2 he hs hg hlt hg2
    have hstep : holidayStep nowY (daysFromCivil nowY nowM nowD)
        (lowerTxt text) = some h2 := by
      simp only [holidayStep, hs, Bool.not_false, if_true,
        Bool.false_eq_true, if_false, add_zero, hg]
      rw [if_pos hlt, hg2]
    simp only [extract_date, he, Bool.false_eq_true, if_false, hstep]
  · intro o nowY nowM nowD text name h2 he hs hg2
    have hstep : holidayStep nowY (daysFromCivil nowY nowM nowD)
        (lowerTxt text) = some h2 := by
      simp only [holidayStep, hs, Bool.not_true, Bool.false_eq_true, if_false,
        if_true, hg2]
    simp only [extract_date, he, Bool.false_eq_true, if_false, hstep]

/-- Claim C8 witness: Thanksgiving 2026 falls on 2026-11-26.  From
2026-10-12, `"by thanksgiving"` resolves to 2026-11-26; from 2026-12-01 it
has passed and rolls to 2027-11-25; `"by next thanksgiving"` from
2026-10-12 uses 2027 unconditionally. -/
theorem c8_holiday_rollover_witness :
    extract_date
        { parseBase := fun _ => none, parseFuture := fun _ => none,
          nerDates := [], searchDates := none }
        2026 10 12 "by thanksgiving" = some (daysFromCivil 2026 11 26) ∧
      extract_date
        { parseBase := fun _ => none, parseFuture := fun _ => none,
          nerDates := [], searchDates := none }
        2026 12 1 "by thanksgiving" = some (daysFromCivil 2027 11 25) ∧
      extract_date
        { parseBase := fun _ => none, parseFuture := fun _ => none,
          nerDates := [], searchDates := none }
        2026 10 12 "by next thanksgiving" = some (daysFromCivil 2027 11 25) :=
  ⟨c8_holiday_rollover.1 _ 2026 10 12 "by thanksgiving"
      ("thanksgiving".toList) (daysFromCivil 2026 11 26)
      (by decide) (by decide) (by decide) (by decide),
   c8_holiday_rollover.2.1 _ 2026 12 1 "by thanksgiving"
      ("thanksgiving".toList) (daysFromCivil 2026 11 26)
      (daysFromCivil 2027 11 25)
      (by decide) (by decide) (by decide) (by decide) (by decide),
   c8_holiday_rollover.2.2 _ 2026 10 12 "by next thanksgiving"
      ("thanksgiving".toList) (daysFromCivil 2027 11 25)
      (by decide) (by decide) (by decide)⟩

/-! ### Claim C9 -/

/-- Claim C9: a whole-word `emergency` not followed by whitespace and
`exit` makes the classifier return High before any downplay or negation
check; and any whole-word `emergency` (so in particular `emergency exit`)
still yields High through the High keyword set when no downplay or
negation cue is present. -/
theorem c9_emergency_precedence :
    (∀ (text : String) (i : Nat),
       wholeWordAt ("emergency".toList) (lowerTxt text) i = true →
       spacesThenPat ("exit".toList) (lowerTxt text)
         (i + ("emergency".toList).length) = false →
       extract_priority text = "High") ∧
    (∀ text : String,
       hasWholeWord ("emergency".toList) (lowerTxt text) = true →
       downplayCue (lowerTxt text) = false →
       negUrgency (lowerTxt text) = false →
       extract_priority text = "High") := by
  constructor
  · intro text i hw hnx
    have hem : emergencyNoExit (lowerTxt text) = true := by
      unfold emergencyNoExit
      rw [List.any_eq_true]
      have hlt : i < (lowerTxt text).length :=
        matchesAt_lt_length (wholeWordAt_parts hw).1 (by decide)
      exact ⟨i, List.mem_range.mpr (Nat.lt_succ_of_lt hlt),
        by rw [hw, hnx]; rfl⟩
    simp only [extract_priority, hem, if_true]
  · intro text hww hd hn
    cases hem : emergencyNoExit (lowerTxt text) with
    | true => simp only [extract_priority, hem, if_true]
    | false =>
      simp only [extract_priority, hem, hd, hn, Bool.false_eq_true, if_false]
      have hhigh : (["high priority", "urgent", "asap", "immediately",
          "emergency", "critical", "immediate attention"] : List String).any
          (fun kw => hasWholeWord kw.toList (lowerTxt text)) = true := by
        rw [List.any_eq_true]
        exact ⟨"emergency", by decide, hww⟩
      simp only [PRIORITY_KEYWORDS, List.findSome?_cons, hhigh, if_true]
      rfl

/-- Claim C9 witness: `"minor emergency"` is High despite the downplay
cue, and `"emergency exit is broken"` is High via the keyword set. -/
theorem c9_emergency_precedence_witness :
    extract_priority "minor emergency" = "High" ∧
      extract_priority "emergency exit is broken" = "High" :=
  ⟨c9_emergency_precedence.1 "minor emergency" 6 (by decide) (by decide),
   c9_emergency_precedence.2 "emergency exit is broken"
     (by decide) (by decide) (by decide)⟩

/-! ### Claim C10 -/

/-- A left-to-right scan (`findSome?` over `range n`) returns the matcher
applied at its minimal succeeding index: later matches are dropped. -/
theorem findSome?_range_eq {α : Type} (m : Nat → Option α) (n : Nat) :
    (List.range n).findSome? m =
      if h : ∃ i, i < n ∧ (m i).isSome = true then m (Nat.find h) else none := by
  induction n with
  | zero =>
    rw [dif_neg]
    · rfl
    · rintro ⟨i, hi, _⟩
      omega
  | succ k ih =>
    rw [List.range_succ, List.findSome?_append, ih]
    by_cases hk : ∃ i, i < k ∧ (m i).isSome = true
    · have hk2 : ∃ i, i < k + 1 ∧ (m i).isSome = true := by
        obtain ⟨i, hi, hm⟩ := hk
        exact ⟨i, by omega, hm⟩
      rw [dif_pos hk, dif_pos hk2]
      have hle : Nat.find hk2 ≤ Nat.find hk :=
        Nat.find_min' hk2
          ⟨by have := (Nat.find_spec hk).1; omega, (Nat.find_spec hk).2⟩
      have hfind : Nat.find hk2 = Nat.find hk := by
        apply Nat.le_antisymm hle
        have hlt : Nat.find hk2 < k := by
          have h2 : Nat.find hk < k := (Nat.find_spec hk).1
          omega
        exact Nat.find_min' hk ⟨hlt, (Nat.find_spec hk2).2⟩
      rw [hfind]
      obtain ⟨v, hv⟩ :=
        Option.isSome_iff_exists.mp (Nat.find_spec hk).2
      rw [hv]
      rfl
    · rw [dif_neg hk, Option.none_or]
      by_cases hv : (m k).isSome = true
      · have hk2 : ∃ i, i < k + 1 ∧ (m i).isSome = true := ⟨k, by omega, hv⟩
        rw [dif_pos hk2]
        have hfind : Nat.find hk2 = k := by
          apply Nat.le_antisymm (Nat.find_min' hk2 ⟨by omega, hv⟩)
          by_contra hlt
          push_neg at hlt
          have hsp := Nat.find_spec hk2
          exact hk ⟨Nat.find hk2, by omega, hsp.2⟩
        rw [hfind]
        obtain ⟨v, hveq⟩ := Option.isSome_iff_exists.mp hv
        rw [List.findSome?_cons, hveq]
      · rw [dif_neg]
        · have hnone : m k = none :=
            Option.not_isSome_iff_eq_none.mp (by simpa using hv)
          rw [List.findSome?_cons, hnone]
          rfl
        · rintro ⟨i, hi, hm⟩
          rcases Nat.lt_succ_iff_lt_or_eq.mp hi with hcase | hcase
          · exact hk ⟨i, hcase, hm⟩
          · subst hcase
            exact hv hm

/-- `re.search` as embedded (left-to-right scan) equals the
minimal-match-index characterization of the claim. -/
theorem reSearch_eq_leastMatch (m : Nat → Option (List Char)) (n : Nat) :
    reSearch m n = leastMatch m n := by
  unfold reSearch leastMatch
  exact findSome?_range_eq m (n + 1)

/-- Claim C10: the location extractor uses only the first match of each of
the twelve fragment kinds (later matches of the same kind are dropped) and
joins the present fragments with `" | "` in the fixed kind order building,
suite, room, floor, stair, street, elevator, hall, corridor, wing, wall,
lobby, regardless of where they occur in the text. -/
theorem c10_location_first_match_fixed_order (text : String) :
    extract_location text = claimLocation text := by
  simp only [extract_location, claimLocation, locationFrags,
    reSearch_eq_leastMatch]

end RoomApp
